import Mathlib

/-
Verification development for `pulp/models.py` (relational-pulp).

The Python source is shallowly embedded below:

* Machine words are `Nat` reduced modulo `2 ^ 32` where 32-bit overflow
  matters (the SHA-256 compression function).
* `hashlib.sha256` is embedded as a full executable SHA-256 over byte lists
  (`sha256Hex`); an incremental sequence of `update` calls is embedded as the
  digest of the concatenation of the updated chunks, which is exactly the
  contract of `hashlib` hasher objects.
* Django model instances become Lean structures; the database tables backing
  the membership and key/value operations become explicit state
  (`Pulp.Db`, association lists), and Django ORM calls (`get_or_create`,
  `filter(...).delete()`, signals, `auto_now` fields) become explicit state
  transitions on that state.  `timezone.now()` is modelled by a monotone
  counter in the state: every call yields a fresh, strictly larger instant.
* Exceptions become `Except` / `Option` results.
-/

namespace Pulp

/-! ## SHA-256 (embedding of `hashlib.sha256`)

Executable SHA-256 over byte lists (each byte a `Nat` below 256), producing
the lowercase hex digest exactly as `hashlib.sha256(...).hexdigest()` does. -/

/-- Reduce to a 32-bit word, the wrap-around arithmetic of SHA-256. -/
def w32 (n : Nat) : Nat := n % 4294967296

/-- Rotate a 32-bit word right by `n` bits. -/
def rotr32 (n x : Nat) : Nat := w32 ((x >>> n) ||| (x <<< (32 - n)))

/-- The SHA-256 `Ch` function; `4294967295 - w32 x` is the 32-bit complement. -/
def shaCh (x y z : Nat) : Nat := Nat.xor (Nat.land x y) (Nat.land (4294967295 - w32 x) z)

/-- The SHA-256 `Maj` function. -/
def shaMaj (x y z : Nat) : Nat := Nat.xor (Nat.xor (Nat.land x y) (Nat.land x z)) (Nat.land y z)

/-- The SHA-256 big Σ0 word function. -/
def bigSigma0 (x : Nat) : Nat := Nat.xor (Nat.xor (rotr32 2 x) (rotr32 13 x)) (rotr32 22 x)

/-- The SHA-256 big Σ1 word function. -/
def bigSigma1 (x : Nat) : Nat := Nat.xor (Nat.xor (rotr32 6 x) (rotr32 11 x)) (rotr32 25 x)

/-- The SHA-256 small σ0 word function. -/
def smallSigma0 (x : Nat) : Nat := Nat.xor (Nat.xor (rotr32 7 x) (rotr32 18 x)) (w32 (x >>> 3))

/-- The SHA-256 small σ1 word function. -/
def smallSigma1 (x : Nat) : Nat := Nat.xor (Nat.xor (rotr32 17 x) (rotr32 19 x)) (w32 (x >>> 10))

/-- The 64 SHA-256 round constants of FIPS 180-4, in decimal. -/
def shaK : List Nat :=
  [1116352408, 1899447441, 3049323471, 3921009573, 961987163, 1508970993,
   2453635748, 2870763221, 3624381080, 310598401, 607225278, 1426881987,
   1925078388, 2162078206, 2614888103, 3248222580, 3835390401, 4022224774,
   264347078, 604807628, 770255983, 1249150122, 1555081692, 1996064986,
   2554220882, 2821834349, 2952996808, 3210313671, 3336571891, 3584528711,
   113926993, 338241895, 666307205, 773529912, 1294757372, 1396182291,
   1695183700, 1986661051, 2177026350, 2456956037, 2730485921, 2820302411,
   3259730800, 3345764771, 3516065817, 3600352804, 4094571909, 275423344,
   430227734, 506948616, 659060556, 883997877, 958139571, 1322822218,
   1537002063, 1747873779, 1955562222, 2024104815, 2227730452, 2361852424,
   2428436474, 2756734187, 3204031479, 3329325298]

/-- The SHA-256 initial hash state of FIPS 180-4, in decimal. -/
def shaH0 : List Nat :=
  [1779033703, 3144134277, 1013904242, 2773480762,
   1359893119, 2600822924, 528734635, 1541459225]

/-- SHA-256 message padding: append `0x80`, zero bytes until the length is
56 mod 64, then the bit length as an 8-byte big-endian integer. -/
def shaPad (msg : List Nat) : List Nat :=
  let len := msg.length
  let zeros := (64 - ((len + 9) % 64)) % 64
  let bitLen := len * 8
  msg ++ [0x80] ++ List.replicate zeros 0 ++
    [(bitLen >>> 56) % 256, (bitLen >>> 48) % 256, (bitLen >>> 40) % 256, (bitLen >>> 32) % 256,
     (bitLen >>> 24) % 256, (bitLen >>> 16) % 256, (bitLen >>> 8) % 256, bitLen % 256]

/-- Combine each run of 4 bytes into a 32-bit big-endian word. -/
def bytesToWords : List Nat → List Nat
  | b0 :: b1 :: b2 :: b3 :: rest => (b0 * 16777216 + b1 * 65536 + b2 * 256 + b3) :: bytesToWords rest
  | _ => []

/-- Extend the 16 block words by `i` further message-schedule words. -/
def shaSchedule (ws : List Nat) (i : Nat) : List Nat :=
  match i with
  | 0 => ws
  | j + 1 =>
    let prev := shaSchedule ws j
    let n := prev.length
    let wNew := w32 (smallSigma1 (prev.getD (n - 2) 0) + prev.getD (n - 7) 0 +
                     smallSigma0 (prev.getD (n - 15) 0) + prev.getD (n - 16) 0)
    prev ++ [wNew]

/-- The eight 32-bit working variables of the SHA-256 compression loop. -/
structure ShaState where
  a : Nat
  b : Nat
  c : Nat
  d : Nat
  e : Nat
  f : Nat
  g : Nat
  h : Nat

/-- One round of the SHA-256 compression loop. -/
def shaRound (st : ShaState) (kw : Nat × Nat) : ShaState :=
  let t1 := w32 (st.h + bigSigma1 st.e + shaCh st.e st.f st.g + kw.1 + kw.2)
  let t2 := w32 (bigSigma0 st.a + shaMaj st.a st.b st.c)
  ⟨w32 (t1 + t2), st.a, st.b, st.c, w32 (st.d + t1), st.e, st.f, st.g⟩

/-- Compress one 64-byte block into the running 8-word hash state. -/
def shaCompress (hs : List Nat) (block : List Nat) : List Nat :=
  let ws := shaSchedule (bytesToWords block) 48
  let init : ShaState :=
    ⟨hs.getD 0 0, hs.getD 1 0, hs.getD 2 0, hs.getD 3 0, hs.getD 4 0, hs.getD 5 0, hs.getD 6 0,
     hs.getD 7 0⟩
  let st := (shaK.zip ws).foldl shaRound init
  [w32 (hs.getD 0 0 + st.a), w32 (hs.getD 1 0 + st.b), w32 (hs.getD 2 0 + st.c),
   w32 (hs.getD 3 0 + st.d), w32 (hs.getD 4 0 + st.e), w32 (hs.getD 5 0 + st.f),
   w32 (hs.getD 6 0 + st.g), w32 (hs.getD 7 0 + st.h)]

/-- Split a byte list into 64-byte chunks; the fuel argument (any upper bound
on the number of chunks, such as the list length) keeps the recursion
structural so the kernel can evaluate it. -/
def chunks64Fuel : Nat → List Nat → List (List Nat)
  | 0, _ => []
  | _, [] => []
  | fuel + 1, b :: bs => (b :: bs).take 64 :: chunks64Fuel fuel ((b :: bs).drop 64)

/-- Split a byte list into 64-byte chunks. -/
def chunks64 (bs : List Nat) : List (List Nat) := chunks64Fuel bs.length bs

/-- SHA-256 digest of a byte list, as eight 32-bit words. -/
def sha256Words (msg : List Nat) : List Nat :=
  (chunks64 (shaPad msg)).foldl shaCompress shaH0

/-- Lowercase hex digit for a value below 16. -/
def hexDigit (n : Nat) : Char :=
  if n < 10 then Char.ofNat (48 + n) else Char.ofNat (87 + n)

/-- Lowercase hex rendering of a 32-bit word, 8 digits. -/
def word32Hex (n : Nat) : List Char :=
  [hexDigit ((n >>> 28) % 16), hexDigit ((n >>> 24) % 16), hexDigit ((n >>> 20) % 16),
   hexDigit ((n >>> 16) % 16), hexDigit ((n >>> 12) % 16), hexDigit ((n >>> 8) % 16),
   hexDigit ((n >>> 4) % 16), hexDigit (n % 16)]

/-- SHA-256 hex digest of a byte list: the embedding of
`hashlib.sha256(msg).hexdigest()`. -/
def sha256Hex (msg : List Nat) : String :=
  String.mk ((sha256Words msg).foldr (fun wd acc => word32Hex wd ++ acc) [])

/-! ## UTF-8 (embedding of Python `str.encode` with the `utf8` codec) -/

/-- UTF-8 encoding of a single code point. -/
def utf8EncodeCharNat (c : Nat) : List Nat :=
  if c < 128 then [c]
  else if c < 2048 then [192 ||| (c >>> 6), 128 ||| (Nat.land c 63)]
  else if c < 65536 then
    [224 ||| (c >>> 12), 128 ||| (Nat.land (c >>> 6) 63), 128 ||| (Nat.land c 63)]
  else
    [240 ||| (c >>> 18), 128 ||| (Nat.land (c >>> 12) 63), 128 ||| (Nat.land (c >>> 6) 63),
     128 ||| (Nat.land c 63)]

/-- Byte list of a string under UTF-8, the embedding of `s.encode('utf8')`. -/
def utf8Bytes (s : String) : List Nat :=
  s.data.foldr (fun c acc => utf8EncodeCharNat c.toNat ++ acc) []

/-! ## GenericKeyValueMutableMapping (`models.py` lines 57-92)

The mapping wraps a Django manager scoped to one owner; the rows visible
through the manager are embedded as an association list of `(key, value)`
pairs in table order (new rows are appended at the end, as a created row is).
The database constraint `unique_together = ('key', 'content_type',
'object_id')` means at most one row per key is ever visible through one
owner's manager; `keysUnique` states it when proofs need it. -/

/-- The database uniqueness constraint on the store: at most one row per key
for a single owner (`unique_together` on `GenericKeyValueStore.Meta`). -/
def keysUnique (s : List (String × String)) : Prop :=
  List.Nodup (s.map Prod.fst)

/-- Embedding of `self.manager.get(key=key)`: the unique row with that key,
`none` when `DoesNotExist` would be raised.  Under `keysUnique` the first
match is the only match. -/
def mgrGet (s : List (String × String)) (k : String) : Option (String × String) :=
  s.find? (fun e => e.1 == k)

/-- Embedding of `GenericKeyValueMutableMapping.__getitem__`:
`self.manager.get(key=key).value`, with `DoesNotExist` propagating (the
spec's NotFound). -/
def getItem (s : List (String × String)) (k : String) : Except String String :=
  match mgrGet s k with
  | some e => Except.ok e.2
  | none => Except.error "DoesNotExist"

/-- Embedding of `GenericKeyValueMutableMapping.__setitem__`: fetch the row
with the key and update it in place (`item.value = value; item.save()`), or
on `DoesNotExist` create a new row (`self.manager.create(key=key,
value=value)`), which appends at the end of the table. -/
def setItem : List (String × String) → String → String → List (String × String)
  | [], k, v => [(k, v)]
  | e :: es, k, v => if e.1 == k then (k, v) :: es else e :: setItem es k v

/-- Embedding of `GenericKeyValueMutableMapping.__delitem__`:
`self.manager.filter(key=key).delete()` removes every row with the key. -/
def delItem (s : List (String × String)) (k : String) : List (String × String) :=
  s.filter (fun e => !(e.1 == k))

/-- Embedding of `GenericKeyValueMutableMapping.__iter__`: the keys of the
rows, in store order. -/
def iterKeys (s : List (String × String)) : List String :=
  s.map Prod.fst

/-- Embedding of `GenericKeyValueMutableMapping.__len__`: the manager's
`count`. -/
def lenStore (s : List (String × String)) : Nat :=
  s.length

/-! ## ContentUnit (`models.py` lines 239-361)

A unit instance is embedded with its database row fields (`pk`,
`content_type`, `key_digest`) together with what Python dispatch supplies at
runtime: `cls`, the lowercase model name of the instance's concrete class
(`type(self)._meta.model_name`, the value `_get_content_type` returns);
`key_fields`, that class's `KEY_FIELDS` list; and `attr`, the stringified
attribute lookup `str(getattr(obj, field))` (`hash_key` and `key_str` only
ever consume attribute values through `str.format`/`str`).

Casting resolves `getattr(self, self.content_type)`, the reverse one-to-one
accessor Django creates for a subclass: the subclass row sharing the base
row's primary key, exposed under the subclass's lowercase model name.  The
visible subclass rows are embedded as a list `db`; `getattr` raising
`AttributeError` (no such accessor, or `RelatedObjectDoesNotExist`, which
subclasses `AttributeError`) corresponds to no list entry matching. -/

/-- A content unit instance: database row fields plus the runtime class data
the methods read through Python dispatch. -/
structure ContentUnit where
  pk : Nat
  content_type : String
  key_digest : String
  cls : String
  key_fields : List String
  attr : String → String

/-- Embedding of `ContentUnit.cast` (lines 321-333): an already-cast
instance (`_get_content_type() == self.content_type`) is returned as is;
otherwise `getattr(self, self.content_type)` resolves the subclass row with
the same primary key exposed under the attribute named by `content_type`,
and on `AttributeError` — unknown content type — the instance itself is
returned. -/
def ContentUnit.cast (u : ContentUnit) (db : List ContentUnit) : ContentUnit :=
  if u.cls == u.content_type then u
  else
    match db.find? (fun v => v.pk == u.pk && v.cls == u.content_type) with
    | some v => v
    | none => u

/-- Embedding of the `ContentUnit.key_dict` property (lines 275-278): the
ordered field-name/value mapping of `key_tuple`, which casts the unit and
reads its class's `KEY_FIELDS` off the cast object. -/
def ContentUnit.key_dict (u : ContentUnit) (db : List ContentUnit) : List (String × String) :=
  let obj := u.cast db
  obj.key_fields.map (fun f => (f, obj.attr f))

/-- Byte stream fed to the hasher by `ContentUnit.hash_key`: for each
key-dict item in order, `'\x7b\x7d\x7b\x7d'.format(key, value).encode('utf8')`;
consecutive `update` calls hash the concatenation. -/
def hashKeyBytes (kd : List (String × String)) : List Nat :=
  kd.foldl (fun acc kv => acc ++ utf8Bytes (kv.1 ++ kv.2)) []

/-- Embedding of `ContentUnit.hash_key` (lines 280-284) at the default
algorithm: a fresh `sha256()`, updated with `key + value` (UTF-8) for each
`key_dict` item in order, then `hexdigest()`. -/
def ContentUnit.hash_key (u : ContentUnit) (db : List ContentUnit) : String :=
  sha256Hex (hashKeyBytes (u.key_dict db))

/-- Embedding of `ContentUnit.save` (lines 292-319).  When `content_type` is
unset (falsy, i.e. the empty string) it is assigned
`self._get_content_type()` — the instance class's model name — and saving is
rejected when that name is the base model's own name `contentunit`
(`raise Exception('Do not save ContentUnit instances directly.')`).  A
non-empty `content_type` is left untouched.  Then `key_digest` is recomputed
from `hash_key` and the row is persisted. -/
def ContentUnit.save (u : ContentUnit) (db : List ContentUnit) : Except String ContentUnit :=
  if u.content_type == "" then
    let u1 : ContentUnit := { u with content_type := u.cls }
    if u1.content_type == "contentunit" then
      Except.error "Do not save ContentUnit instances directly."
    else
      Except.ok { u1 with key_digest := u1.hash_key db }
  else
    Except.ok { u with key_digest := u.hash_key db }

/-! ## ContentUnitFile (`models.py` lines 364-449) -/

/-- The `Checksum` namedtuple (`models.py` line 14). -/
structure Checksum where
  algorithm : String
  digest : String
deriving DecidableEq

/-- The digest fields of a `ContentUnitFile` row.  Each is a nullable,
blankable `CharField`; `none` embeds NULL and `some ""` embeds a stored
empty string, both falsy in the `if field_value` test of
`_digest_generator`.  The fields appear in declaration order, which is the
order `_meta.fields` — and hence `_hash_field_generator` — yields them
(`hashlib.algorithms_guaranteed` contains all six names). -/
structure ContentUnitFile where
  md5 : Option String
  sha1 : Option String
  sha224 : Option String
  sha256 : Option String
  sha384 : Option String
  sha512 : Option String
deriving DecidableEq

/-- Helper for `_digest_generator`: keep the checksum when the field value
is truthy (neither NULL nor the empty string). -/
def digestIfTruthy (name : String) (v : Option String) (acc : List Checksum) : List Checksum :=
  match v with
  | some s => if s == "" then acc else ⟨name, s⟩ :: acc
  | none => acc

/-- Embedding of `ContentUnitFile._digest_generator` (lines 441-446):
`Checksum` tuples for the truthy digest fields, in field declaration
order. -/
def ContentUnitFile.digest_list (f : ContentUnitFile) : List Checksum :=
  digestIfTruthy "md5" f.md5 (digestIfTruthy "sha1" f.sha1 (digestIfTruthy "sha224" f.sha224
    (digestIfTruthy "sha256" f.sha256 (digestIfTruthy "sha384" f.sha384
      (digestIfTruthy "sha512" f.sha512 [])))))

/-- Stable insertion of one element into a run already sorted by `le`,
placing the new element before the first position where `le` holds — the
ordering contract of Python's stable `sorted`. -/
def sortedInsert (le : Checksum → Checksum → Bool) (x : Checksum) :
    List Checksum → List Checksum
  | [] => [x]
  | y :: ys => if le x y then x :: y :: ys else y :: sortedInsert le x ys

/-- Stable sort by `le` (insertion sort): the embedding of Python's
`sorted`, which is stable — elements whose keys compare equal keep their
original relative order, also under `reverse=True`. -/
def pySorted (le : Checksum → Checksum → Bool) : List Checksum → List Checksum
  | [] => []
  | x :: xs => sortedInsert le x (pySorted le xs)

/-- The comparison `sorted(..., key=lambda c: len(c.digest), reverse=True)`
induces: longer digests first, original order on ties. -/
def byDigestLenDesc (a b : Checksum) : Bool :=
  b.digest.length ≤ a.digest.length

/-- Embedding of `ContentUnitFile.best_checksum` (lines 402-414): the first
element of the digest tuples sorted by digest length, descending
(`IndexError` on the empty sort becomes `none`). -/
def ContentUnitFile.best_checksum (f : ContentUnitFile) : Option Checksum :=
  (pySorted byDigestLenDesc f.digest_list).head?

/-- Written from the spec's words, for comparison with `best_checksum`:
among the available digests, the one with the longest digest string, ties
broken by the first-encountered entry, `none` when no digest is present. -/
def specBestChecksum : List Checksum → Option Checksum
  | [] => none
  | c :: cs =>
    match specBestChecksum cs with
    | none => some c
    | some m => if c.digest.length < m.digest.length then some m else some c

/-! ### File-content hashing in `ContentUnitFile.save` (lines 416-434)

The save method hashes `self.content.readlines()` line by line, calling
`line.encode('utf8')` on each line: the lines are therefore `str` values,
i.e. the file is read as text.  Python text-mode reading applies universal
newline translation (`\r\n` and bare `\r` both become `\n`) before
`readlines` splits the text after each `\n`, keeping the separators; for
content whose bytes are valid UTF-8 the decode/encode round trip is the
identity on each translated line.  Feeding the hashers line by line hashes
the concatenation of the lines, so the digest each hasher produces is the
digest of the newline-translated byte stream — not of the raw bytes. -/

/-- Universal newline translation of Python text mode on the raw bytes:
CR LF becomes LF, a bare CR becomes LF. -/
def universalNewlines : List Nat → List Nat
  | [] => []
  | 13 :: 10 :: rest => 10 :: universalNewlines rest
  | 13 :: rest => 10 :: universalNewlines rest
  | b :: rest => b :: universalNewlines rest

/-- Split a byte stream after each LF, keeping the separators: the lines
`readlines` yields on the translated text.  The first argument accumulates
the current line in reverse. -/
def splitLinesAux : List Nat → List Nat → List (List Nat)
  | acc, [] => if acc.isEmpty then [] else [acc.reverse]
  | acc, 10 :: rest => (acc.reverse ++ [10]) :: splitLinesAux [] rest
  | acc, b :: rest => splitLinesAux (b :: acc) rest

/-- The lines `self.content.readlines()` yields, as byte lists (universal
newline translation, then splitting after each LF). -/
def readLines (content : List Nat) : List (List Nat) :=
  splitLinesAux [] (universalNewlines content)

/-- Byte stream actually fed to every hasher by `ContentUnitFile.save`: the
concatenation of the re-encoded lines of the text-mode read. -/
def savedHashStream (content : List Nat) : List Nat :=
  (readLines content).foldl (fun acc line => acc ++ line) []

/-- The sha256 digest `ContentUnitFile.save` stores for a file with the
given raw byte content (the other five algorithms are fed the same
stream). -/
def savedSha256 (content : List Nat) : String :=
  sha256Hex (savedHashStream content)

/-! ## Repository membership (`models.py` lines 132-163, 453-516)

State visible to the membership operations: the repository rows touched by
`units_changed`, the `RepositoryContentUnit` join table, and a clock.
`timezone.now()` is embedded as reading the clock, each call yielding a
fresh, strictly later instant.  The two instrumentation counters record each
firing of the timestamp side effect — one per `repository.save(...)` call
`units_changed` performs — so that claims about how often the side effect
fires are stated directly on the state.

Django specifics embedded: `signals.pre_save.connect(units_saved, ...)`
makes `units_saved` run when a `RepositoryContentUnit` save begins, before
the row itself is written; `auto_now_add`/`auto_now` stamp the row with
`timezone.now()` when the INSERT is built, after the pre-save signal;
`signals.post_delete` runs after a row is deleted; and under the default
autocommit each completed statement is durable on its own, so a repository
write performed by the pre-save handler is not undone when the subsequent
INSERT fails. -/

/-- A `Repository` row: the fields `units_changed` can see
(timestamps) together with the fields it must not touch. -/
structure Repository where
  slug : String
  display_name : String
  description : String
  last_unit_added : Option Nat
  last_unit_removed : Option Nat
deriving DecidableEq

/-- A `RepositoryContentUnit` row (lines 453-471): the two foreign keys by
primary key, plus the `created` (`auto_now_add`) and `updated` (`auto_now`)
stamps. -/
structure RepositoryContentUnit where
  repository : Nat
  content_unit : Nat
  created : Nat
  updated : Nat
deriving DecidableEq

/-- The database state the membership operations act on. -/
structure Db where
  repos : Nat → Repository
  rcus : List RepositoryContentUnit
  clock : Nat
  addedFires : Nat → Nat
  removedFires : Nat → Nat

/-- Embedding of `units_changed` (lines 490-505): read `timezone.now()`,
pick the timestamp field for the action, set it on the repository object and
save with `update_fields` naming exactly that field — so only that one
column is written.  An unknown action returns before touching anything.  The
matching fire counter records the save. -/
def units_changed (db : Db) (rid : Nat) (action : String) : Db :=
  let now := db.clock
  let db1 : Db := { db with clock := db.clock + 1 }
  if action == "save" then
    { db1 with
      repos := fun x => if x == rid then
          { db1.repos rid with last_unit_added := some now } else db1.repos x,
      addedFires := fun x => if x == rid then db1.addedFires rid + 1 else db1.addedFires x }
  else if action == "delete" then
    { db1 with
      repos := fun x => if x == rid then
          { db1.repos rid with last_unit_removed := some now } else db1.repos x,
      removedFires := fun x => if x == rid then db1.removedFires rid + 1 else db1.removedFires x }
  else db1

/-- Embedding of the `units_saved` pre-save receiver (lines 508-509). -/
def units_saved (db : Db) (rid : Nat) : Db :=
  units_changed db rid "save"

/-- Embedding of the `units_deleted` post-delete receiver (lines 512-513). -/
def units_deleted (db : Db) (rid : Nat) : Db :=
  units_changed db rid "delete"

/-- Membership test for a (repository, unit) pair in the join table. -/
def pairMatch (rid uid : Nat) (row : RepositoryContentUnit) : Bool :=
  row.repository == rid && row.content_unit == uid

/-- Embedding of saving a new `RepositoryContentUnit(repository=r,
content_unit=u)` row: the pre-save signal fires first (`units_saved`), the
auto stamps then read `timezone.now()`, and finally the INSERT runs — which
the database rejects with `IntegrityError` when the `unique_together`
`('repository', 'content_unit')` pair already exists.  Under autocommit the
repository write the signal already performed stays in place either way. -/
def RepositoryContentUnit.saveNew (db : Db) (rid uid : Nat) :
    Option String × Db :=
  let db1 := units_saved db rid
  let stamp := db1.clock
  let db2 : Db := { db1 with clock := db1.clock + 1 }
  if db2.rcus.any (pairMatch rid uid) then
    (some "IntegrityError", db2)
  else
    (none, { db2 with rcus := db2.rcus ++ [⟨rid, uid, stamp, stamp⟩] })

/-- Embedding of `RepositoryContentUnit.objects.get_or_create(repository=r,
content_unit=u)`: fetch the pair, and only when it is absent create and
save a new row. -/
def getOrCreateRCU (db : Db) (rid uid : Nat) : Db :=
  if db.rcus.any (pairMatch rid uid) then db
  else (RepositoryContentUnit.saveNew db rid uid).2

/-- Embedding of `Repository.add_units` (lines 158-160): `get_or_create`
per unit, in argument order. -/
def Repository.add_units (db : Db) (rid : Nat) (units : List Nat) : Db :=
  units.foldl (fun d u => getOrCreateRCU d rid u) db

/-- Embedding of `Repository.remove_units` (lines 162-163):
`filter(repository=self, content_unit__in=units).delete()` — the matching
rows are deleted, then the post-delete signal runs once per deleted row. -/
def Repository.remove_units (db : Db) (rid : Nat) (units : List Nat) : Db :=
  let doomed := db.rcus.filter (fun row => row.repository == rid &&
    units.contains row.content_unit)
  let db1 : Db := { db with rcus := db.rcus.filter (fun row => !(row.repository == rid &&
    units.contains row.content_unit)) }
  doomed.foldl (fun d row => units_deleted d row.repository) db1

/-- Number of join-table rows for one (repository, unit) pair. -/
def countPair (db : Db) (rid uid : Nat) : Nat :=
  (db.rcus.filter (pairMatch rid uid)).length

/-! ## Concrete instances used by witnesses -/

/-- A concrete rpm-variant unit with key fields `name`, `version`. -/
def unitA : ContentUnit :=
  ⟨1, "rpm", "", "rpm", ["name", "version"],
   fun f => if f == "name" then "pkgA" else if f == "version" then "1.0" else ""⟩

/-- A concrete unit of a different variant whose key mapping coincides with
`unitA`'s. -/
def unitB : ContentUnit :=
  ⟨2, "fakerpm", "", "fakerpm", ["name", "version"],
   fun f => if f == "version" then "1.0" else if f == "name" then "pkgA" else "other"⟩

/-- A base-class `ContentUnit` instance with the discriminator unset. -/
def untypedUnit : ContentUnit :=
  ⟨8, "", "", "contentunit", ["pk"], fun _ => "8"⟩

/-- A unit whose discriminator is already set to the base type-erased name. -/
def presetBaseUnit : ContentUnit :=
  ⟨7, "contentunit", "olddigest", "contentunit", ["pk"], fun _ => "7"⟩

/-- A base-row instance whose discriminator names a type with no resolvable
variant (a removed plugin's type). -/
def ghostUnit : ContentUnit :=
  ⟨3, "ghosttype", "d1gest", "contentunit", ["pk"], fun _ => "3"⟩

/-- A concrete variant row registered for `cast` witnesses: the `rpm` row
sharing `pk` 1. -/
def rpmRow : ContentUnit :=
  ⟨1, "rpm", "", "rpm", ["name", "version"],
   fun f => if f == "name" then "pkgA" else if f == "version" then "1.0" else ""⟩

/-- A base-row instance for `pk` 1 declaring the `rpm` type. -/
def baseRow : ContentUnit :=
  ⟨1, "rpm", "", "contentunit", ["pk"], fun _ => "1"⟩

/-- A repository row with every field at its blank default. -/
def emptyRepo : Repository := ⟨"", "", "", none, none⟩

/-- An initial database: blank repositories, empty join table, clock 0. -/
def db0 : Db := ⟨fun _ => emptyRepo, [], 0, fun _ => 0, fun _ => 0⟩

/-- The state after adding unit 5 to repository 0 once. -/
def db1 : Db := Repository.add_units db0 0 [5]

/-- Sanity check of the SHA-256 embedding against the FIPS 180 test vector
for the message `abc`. -/
theorem sha256Hex_vector_abc :
    sha256Hex [97, 98, 99] =
      "ba7816bf8f01cfea414140de5dae2223b00361a396177a9cb410ff61f20015ad" := by
  decide

/-! ## C1: the key digest is a pure function of the ordered key mapping -/

/-- C1: `ContentUnit.hash_key` concatenates each key-field name with the
string form of the field's value in `KEY_FIELDS` order, hashes the
concatenation with SHA-256 and returns the hex digest; consequently any two
units (of the same or different variants, cast against possibly different
databases) with equal key mappings — same field names and stringified
values — receive equal digests. -/
theorem hash_key_deterministic (dbA dbB : List ContentUnit) (A B : ContentUnit)
    (h : A.key_dict dbA = B.key_dict dbB) :
    A.hash_key dbA = sha256Hex (hashKeyBytes (A.key_dict dbA)) ∧
      A.hash_key dbA = B.hash_key dbB := by
  refine ⟨rfl, ?_⟩
  unfold ContentUnit.hash_key
  rw [h]

/-- Witness for C1: two concrete units of different variants share the key
mapping `name ↦ pkgA, version ↦ 1.0` and hence the digest. -/
theorem hash_key_deterministic_witness :
    unitA.key_dict [] = unitB.key_dict [] ∧ unitA.hash_key [] = unitB.hash_key [] :=
  ⟨by decide, (hash_key_deterministic [] [] unitA unitB (by decide)).2⟩

/-! ## C6: casting an unknown content type degrades gracefully -/

/-- C6: when the discriminator resolves to no concrete variant row (the
`getattr` of `cast` raises `AttributeError`), `cast` returns the base
record itself — primary key, discriminator and key digest unchanged — and
raises nothing. -/
theorem cast_unknown_type (db : List ContentUnit) (u : ContentUnit)
    (h : db.find? (fun v => v.pk == u.pk && v.cls == u.content_type) = none) :
    u.cast db = u ∧ (u.cast db).pk = u.pk ∧ (u.cast db).content_type = u.content_type ∧
      (u.cast db).key_digest = u.key_digest := by
  have hc : u.cast db = u := by
    unfold ContentUnit.cast
    by_cases hcc : (u.cls == u.content_type) = true
    · simp [hcc]
    · simp [hcc, h]
  exact ⟨hc, by rw [hc], by rw [hc], by rw [hc]⟩

/-- Witness for C6: a unit whose discriminator is `ghosttype`, cast against
a database with no such variant, is returned unchanged. -/
theorem cast_unknown_type_witness :
    ghostUnit.cast [rpmRow] = ghostUnit :=
  (cast_unknown_type [rpmRow] ghostUnit (by rfl)).1

/-! ## C8: cast is idempotent -/

/-- C8: `cast (cast u) = cast u` whenever every variant row in the database
carries its own class name as its discriminator — which Django guarantees,
since a subclass row shares the base row whose `content_type` was set to
that subclass's model name on save; in particular a record whose runtime
class already matches its discriminator is returned unchanged. -/
theorem cast_idempotent (db : List ContentUnit) (u : ContentUnit)
    (h : db.all (fun v => v.content_type == v.cls) = true) :
    (u.cast db).cast db = u.cast db ∧ (u.cls = u.content_type → u.cast db = u) := by
  have hall : ∀ v ∈ db, v.content_type = v.cls := by
    intro v hv
    exact beq_iff_eq.mp (List.all_eq_true.mp h v hv)
  constructor
  · by_cases hcc : (u.cls == u.content_type) = true
    · simp [ContentUnit.cast, hcc]
    · cases hf : db.find? (fun v => v.pk == u.pk && v.cls == u.content_type) with
      | none =>
        simp [ContentUnit.cast, hcc, hf]
      | some v =>
        have hm : v ∈ db := List.mem_of_find?_eq_some hf
        have hp := List.find?_some hf
        simp only [Bool.and_eq_true, beq_iff_eq] at hp
        have hvct : (v.cls == v.content_type) = true := by
          rw [hall v hm]
          simp
        have hcast : u.cast db = v := by
          simp [ContentUnit.cast, hcc, hf]
        rw [hcast]
        simp [ContentUnit.cast, hvct]
  · intro hcc
    simp [ContentUnit.cast, hcc]

/-- Witness for C8: casting the base row for pk 1 against a database holding
the rpm variant row is idempotent, and the already-cast rpm row is returned
unchanged. -/
theorem cast_idempotent_witness :
    (baseRow.cast [rpmRow]).cast [rpmRow] = baseRow.cast [rpmRow] ∧
      rpmRow.cast [rpmRow] = rpmRow :=
  ⟨(cast_idempotent [rpmRow] baseRow (by decide)).1,
   (cast_idempotent [rpmRow] rpmRow (by decide)).2 (by decide)⟩

/-! ## C7: key/value mapping semantics -/

/-- After `setItem`, the manager lookup of the key finds the freshly written
value: the updated-in-place row when the key existed, the created row when
it did not. -/
theorem mgrGet_setItem (s : List (String × String)) (k v : String) :
    mgrGet (setItem s k v) k = some (k, v) := by
  induction s with
  | nil => simp [setItem, mgrGet, List.find?]
  | cons e es ih =>
    cases he : (e.1 == k) with
    | true => simp [setItem, he, mgrGet, List.find?_cons]
    | false =>
      simp only [setItem, he, Bool.false_eq_true, if_false]
      simpa [mgrGet, List.find?_cons, he] using ih

/-- Reading a key back right after setting it yields the set value. -/
theorem getItem_setItem (s : List (String × String)) (k v : String) :
    getItem (setItem s k v) k = Except.ok v := by
  simp [getItem, mgrGet_setItem]

/-- When at most one row holds the key — the store's uniqueness
constraint — `setItem` leaves exactly one row holding it. -/
theorem countKey_setItem (s : List (String × String)) (k v : String)
    (h : (s.filter (fun e => e.1 == k)).length ≤ 1) :
    ((setItem s k v).filter (fun e => e.1 == k)).length = 1 := by
  induction s with
  | nil => simp [setItem]
  | cons e es ih =>
    cases he : (e.1 == k) with
    | true =>
      have h0 : (es.filter (fun x => x.1 == k)).length = 0 := by
        rw [List.filter_cons] at h
        simp only [he, if_true] at h
        simp only [List.length_cons] at h
        omega
      simp [setItem, he, List.filter_cons, h0]
    | false =>
      rw [List.filter_cons] at h
      simp only [he, Bool.false_eq_true, if_false] at h
      simp only [setItem, he, Bool.false_eq_true, if_false, List.filter_cons]
      exact ih h

/-- Reading a key right after deleting it raises `DoesNotExist`. -/
theorem getItem_delItem (s : List (String × String)) (k : String) :
    getItem (delItem s k) k = Except.error "DoesNotExist" := by
  have hnone : mgrGet (delItem s k) k = none := by
    refine List.find?_eq_none.mpr ?_
    intro e he
    have hp := List.of_mem_filter he
    simp at hp
    simp [hp]
  simp [getItem, hnone]

/-- C7: under the store's uniqueness constraint (at most one row per key for
one owner), `get` after `set` returns the set value; a second `set` of the
same key updates in place, so `get` returns the latest value and exactly one
row holds the key; `get` after `delete`, or on a store where the key was
never set, fails with `DoesNotExist` (the spec's NotFound). -/
theorem kv_mapping_roundtrip (s : List (String × String)) (k v v1 v2 : String)
    (h : (s.filter (fun e => e.1 == k)).length ≤ 1) :
    getItem (setItem s k v) k = Except.ok v ∧
    getItem (setItem (setItem s k v1) k v2) k = Except.ok v2 ∧
    ((setItem (setItem s k v1) k v2).filter (fun e => e.1 == k)).length = 1 ∧
    getItem (delItem s k) k = Except.error "DoesNotExist" ∧
    getItem [] k = Except.error "DoesNotExist" := by
  refine ⟨getItem_setItem s k v, getItem_setItem _ k v2, ?_, getItem_delItem s k, ?_⟩
  · exact countKey_setItem _ k v2 (le_of_eq (countKey_setItem s k v1 h))
  · simp [getItem, mgrGet, List.find?]

/-- Witness for C7: the operations on the concrete one-row store
`[(a, 1)]`. -/
theorem kv_mapping_roundtrip_witness :
    getItem (setItem [("a", "1")] "k" "v") "k" = Except.ok "v" ∧
    getItem (setItem (setItem [("a", "1")] "k" "v1") "k" "v2") "k" = Except.ok "v2" ∧
    ((setItem (setItem [("a", "1")] "k" "v1") "k" "v2").filter
      (fun e => e.1 == "k")).length = 1 ∧
    getItem (delItem [("a", "1")] "k") "k" = Except.error "DoesNotExist" ∧
    getItem [] "k" = Except.error "DoesNotExist" :=
  kv_mapping_roundtrip [("a", "1")] "k" "v" "v1" "v2" (by decide)

/-! ## C4: discriminator rules of `ContentUnit.save` -/

/-- Counterexample to C4 as stated: a unit whose discriminator is already
set to the base type-erased name `contentunit` is NOT rejected —
`ContentUnit.save` only derives and checks the name when the discriminator
is unset, so the save succeeds with the base-name discriminator kept.  Under
the claimed behavior this save would have returned the
`Do not save ContentUnit instances directly.` error. -/
theorem save_preset_base_not_rejected :
    presetBaseUnit.content_type = "contentunit" ∧
    presetBaseUnit.save [] =
      Except.ok { presetBaseUnit with key_digest := presetBaseUnit.hash_key [] } :=
  ⟨rfl, rfl⟩

/-- C4 amended: persisting a unit whose discriminator is unset and whose
runtime class is the base type-erased class is rejected with the
`Do not save ContentUnit instances directly.` error; a discriminator that
is already set (non-empty) is never reassigned by a save — the save
succeeds and the stored record keeps the discriminator unchanged, whatever
its value. -/
theorem save_discriminator_rules (db : List ContentUnit) (u : ContentUnit) :
    (u.content_type = "" → u.cls = "contentunit" →
      u.save db = Except.error "Do not save ContentUnit instances directly.") ∧
    (u.content_type ≠ "" →
      u.save db = Except.ok { u with key_digest := u.hash_key db }) := by
  constructor
  · intro h1 h2
    simp [ContentUnit.save, h1, h2]
  · intro h1
    have hne : (u.content_type == "") = false := by
      simp [h1]
    simp [ContentUnit.save, hne]

/-- Witness for C4 amended: the untyped base instance is rejected, and a
unit with the discriminator `rpm` already set is saved with the
discriminator untouched. -/
theorem save_discriminator_rules_witness :
    untypedUnit.save [] = Except.error "Do not save ContentUnit instances directly." ∧
    unitA.save [] = Except.ok { unitA with key_digest := unitA.hash_key [] } :=
  ⟨(save_discriminator_rules [] untypedUnit).1 rfl rfl,
   (save_discriminator_rules [] unitA).2 (by decide)⟩

/-! ## C9: best_checksum picks the first longest digest -/

/-- Head of the stable descending-by-digest-length sort: the first element
of maximal digest length, which is what the spec-side selector computes. -/
theorem head_pySorted (l : List Checksum) :
    (pySorted byDigestLenDesc l).head? = specBestChecksum l := by
  induction l with
  | nil => rfl
  | cons c cs ih =>
    cases hs : pySorted byDigestLenDesc cs with
    | nil =>
      rw [hs] at ih
      rw [pySorted, hs, specBestChecksum, ← ih]
      rfl
    | cons y ys =>
      rw [hs] at ih
      rw [pySorted, hs, specBestChecksum, ← ih]
      simp only [List.head?_cons]
      rw [sortedInsert]
      by_cases hle : byDigestLenDesc c y = true
      · rw [if_pos hle]
        have hnl : ¬(c.digest.length < y.digest.length) := by
          unfold byDigestLenDesc at hle
          simp at hle
          omega
        rw [if_neg hnl]
        rfl
      · rw [if_neg hle]
        have hl : c.digest.length < y.digest.length := by
          unfold byDigestLenDesc at hle
          simp at hle
          omega
        rw [if_pos hl]
        rfl

/-- C9: `best_checksum` returns, among the truthy digest fields, the entry
with the longest digest string, ties broken by the first-encountered entry
in the fixed field order of `_digest_generator`, and `none` when no digest
is present — it coincides with the spec-side selector on the available
digest list. -/
theorem best_checksum_spec (f : ContentUnitFile) :
    f.best_checksum = specBestChecksum f.digest_list := by
  unfold ContentUnitFile.best_checksum
  exact head_pySorted f.digest_list

/-! ## C2, C3, C10: membership adds/removes and the timestamp side effect -/

/-- A list with no row matching `p` has `any p` false. -/
theorem filterLen_zero_any_false {α : Type} (p : α → Bool) (l : List α)
    (h : (l.filter p).length = 0) : l.any p = false := by
  induction l with
  | nil => rfl
  | cons x xs ih =>
    rw [List.filter_cons] at h
    cases hx : p x with
    | true =>
      rw [hx] at h
      simp at h
    | false =>
      rw [hx] at h
      simp only [Bool.false_eq_true, if_false] at h
      rw [List.any_cons, hx]
      simp [ih h]

/-- A new join row for the pair matches the pair predicate. -/
theorem pairMatch_self (r u c t : Nat) :
    pairMatch r u ⟨r, u, c, t⟩ = true := by
  simp [pairMatch]

/-- C2: starting from a state with no row for the pair, adding the unit to
the repository twice (two `get_or_create` calls through
`Repository.add_units`) leaves exactly one join row for the pair, and the
`last_unit_added` side effect fires exactly once — on the true insert, the
first call — and not on the second, no-op add. -/
theorem add_units_idempotent (db : Db) (r u : Nat) (h : countPair db r u = 0) :
    countPair (Repository.add_units (Repository.add_units db r [u]) r [u]) r u = 1 ∧
    (Repository.add_units db r [u]).addedFires r = db.addedFires r + 1 ∧
    (Repository.add_units (Repository.add_units db r [u]) r [u]).addedFires r =
      (Repository.add_units db r [u]).addedFires r := by
  have hany : db.rcus.any (pairMatch r u) = false :=
    filterLen_zero_any_false _ _ h
  unfold countPair at h
  simp only [Repository.add_units, List.foldl]
  simp [getOrCreateRCU, RepositoryContentUnit.saveNew, units_saved, units_changed,
        hany, countPair, List.filter_append, List.any_append, pairMatch_self, h]

/-- Witness for C2: adding unit 5 to repository 0 twice from the initial
state. -/
theorem add_units_idempotent_witness :
    countPair (Repository.add_units (Repository.add_units db0 0 [5]) 0 [5]) 0 5 = 1 ∧
    (Repository.add_units db0 0 [5]).addedFires 0 = db0.addedFires 0 + 1 ∧
    (Repository.add_units (Repository.add_units db0 0 [5]) 0 [5]).addedFires 0 =
      (Repository.add_units db0 0 [5]).addedFires 0 :=
  add_units_idempotent db0 0 5 (by decide)

/-- Counterexample to C3 as stated.  On the true insert from the initial
state the side effects run in the opposite of the claimed order: the
`last_unit_added` write records instant 0 while the membership row is only
stamped at the later instant 1 — the timestamp update (a pre-save signal)
precedes the row write, whereas the claim fixes row first, timestamp
second.  And the operation is not atomic: a direct save of the same pair
fails its INSERT with `IntegrityError`, writes no row, yet still mutates
the repository's `last_unit_added` (from instant 0 to instant 2), where the
claim requires a failed insert to leave the timestamps unchanged. -/
theorem membership_order_counterexample :
    ((Repository.add_units db0 0 [5]).repos 0).last_unit_added = some 0 ∧
    (Repository.add_units db0 0 [5]).rcus = [⟨0, 5, 1, 1⟩] ∧
    (RepositoryContentUnit.saveNew (Repository.add_units db0 0 [5]) 0 5).1 =
      some "IntegrityError" ∧
    (RepositoryContentUnit.saveNew (Repository.add_units db0 0 [5]) 0 5).2.rcus =
      [⟨0, 5, 1, 1⟩] ∧
    ((RepositoryContentUnit.saveNew (Repository.add_units db0 0 [5]) 0 5).2.repos
      0).last_unit_added = some 2 := by
  refine ⟨rfl, rfl, rfl, rfl, rfl⟩

/-- Repository view after adding one absent unit: only the added-timestamp
of the target repository changes. -/
theorem add_units_one_repos (db : Db) (r u x : Nat)
    (h : db.rcus.any (pairMatch r u) = false) :
    (Repository.add_units db r [u]).repos x =
      if x == r then { db.repos r with last_unit_added := some db.clock }
      else db.repos x := by
  simp [Repository.add_units, List.foldl, getOrCreateRCU,
    RepositoryContentUnit.saveNew, units_saved, units_changed, h]

/-- Join table after adding one absent unit: the new row is appended, with
both auto stamps taken one instant after the timestamp side effect ran. -/
theorem add_units_one_rcus (db : Db) (r u : Nat)
    (h : db.rcus.any (pairMatch r u) = false) :
    (Repository.add_units db r [u]).rcus =
      db.rcus ++ [⟨r, u, db.clock + 1, db.clock + 1⟩] := by
  simp [Repository.add_units, List.foldl, getOrCreateRCU,
    RepositoryContentUnit.saveNew, units_saved, units_changed, h]

/-- The one row a single-pair removal deletes targets the right
repository. -/
theorem remove_units_one_rep (db : Db) (r u : Nat) (rcu1 : RepositoryContentUnit)
    (hone : db.rcus.filter (fun row => row.repository == r &&
      [u].contains row.content_unit) = [rcu1]) :
    rcu1.repository = r := by
  have hm : rcu1 ∈ db.rcus.filter (fun row => row.repository == r &&
      [u].contains row.content_unit) := by
    rw [hone]
    exact List.mem_singleton.mpr rfl
  have hp := List.of_mem_filter hm
  simp only [Bool.and_eq_true, beq_iff_eq] at hp
  exact hp.1

/-- Repository view after removing one present pair: only the
removed-timestamp of the target repository changes. -/
theorem remove_units_one_repos (db : Db) (r u x : Nat)
    (rcu1 : RepositoryContentUnit)
    (hone : db.rcus.filter (fun row => row.repository == r &&
      [u].contains row.content_unit) = [rcu1]) :
    (Repository.remove_units db r [u]).repos x =
      if x == r then { db.repos r with last_unit_removed := some db.clock }
      else db.repos x := by
  have hrep := remove_units_one_rep db r u rcu1 hone
  simp only [Repository.remove_units]
  rw [hone]
  simp [List.foldl, units_deleted, units_changed, hrep]

/-- Join table after a removal: exactly the matching rows are gone. -/
theorem remove_units_one_rcus (db : Db) (r u : Nat)
    (rcu1 : RepositoryContentUnit)
    (hone : db.rcus.filter (fun row => row.repository == r &&
      [u].contains row.content_unit) = [rcu1]) :
    (Repository.remove_units db r [u]).rcus =
      db.rcus.filter (fun row => !(row.repository == r &&
        [u].contains row.content_unit)) := by
  simp only [Repository.remove_units]
  rw [hone]
  simp [List.foldl, units_deleted, units_changed]

/-- C3 amended: for a membership remove the two steps keep the claimed
order — the join row is deleted first and `last_unit_removed` is written
afterwards — but for a membership add the order is reversed: the
`last_unit_added` update is attached to the pre-save signal, so the
repository timestamp is written at the instant before the row's own
`created` stamp; and the add is not atomic — an insert that fails against
the uniqueness constraint (here, a direct save of an existing pair) writes
no row yet still leaves the repository timestamp freshly mutated. -/
theorem membership_side_effect_order (dbA dbP dbD : Db) (r u : Nat)
    (rcu1 : RepositoryContentUnit)
    (habs : dbA.rcus.any (pairMatch r u) = false)
    (hpres : dbP.rcus.any (pairMatch r u) = true)
    (hone : dbD.rcus.filter (fun row => row.repository == r &&
      [u].contains row.content_unit) = [rcu1]) :
    ((Repository.add_units dbA r [u]).repos r).last_unit_added = some dbA.clock ∧
    (Repository.add_units dbA r [u]).rcus =
      dbA.rcus ++ [⟨r, u, dbA.clock + 1, dbA.clock + 1⟩] ∧
    (RepositoryContentUnit.saveNew dbP r u).1 = some "IntegrityError" ∧
    (RepositoryContentUnit.saveNew dbP r u).2.rcus = dbP.rcus ∧
    ((RepositoryContentUnit.saveNew dbP r u).2.repos r).last_unit_added =
      some dbP.clock ∧
    (Repository.remove_units dbD r [u]).rcus =
      dbD.rcus.filter (fun row => !(row.repository == r &&
        [u].contains row.content_unit)) ∧
    ((Repository.remove_units dbD r [u]).repos r).last_unit_removed =
      some dbD.clock := by
  refine ⟨?_, ?_, ?_, ?_, ?_, ?_, ?_⟩
  · rw [add_units_one_repos dbA r u r habs]
    simp
  · exact add_units_one_rcus dbA r u habs
  · simp [RepositoryContentUnit.saveNew, units_saved, units_changed, hpres]
  · simp [RepositoryContentUnit.saveNew, units_saved, units_changed, hpres]
  · simp [RepositoryContentUnit.saveNew, units_saved, units_changed, hpres]
  · exact remove_units_one_rcus dbD r u rcu1 hone
  · rw [remove_units_one_repos dbD r u r rcu1 hone]
    simp

/-- Witness for C3 amended: the three starting states are the initial
state (pair absent), and the state after one add (pair present) for the
failing direct save and for the remove. -/
theorem membership_side_effect_order_witness :
    ((Repository.add_units db0 0 [5]).repos 0).last_unit_added = some db0.clock ∧
    (Repository.add_units db0 0 [5]).rcus =
      db0.rcus ++ [⟨0, 5, db0.clock + 1, db0.clock + 1⟩] ∧
    (RepositoryContentUnit.saveNew db1 0 5).1 = some "IntegrityError" ∧
    (RepositoryContentUnit.saveNew db1 0 5).2.rcus = db1.rcus ∧
    ((RepositoryContentUnit.saveNew db1 0 5).2.repos 0).last_unit_added =
      some db1.clock ∧
    (Repository.remove_units db1 0 [5]).rcus =
      db1.rcus.filter (fun row => !(row.repository == 0 &&
        [5].contains row.content_unit)) ∧
    ((Repository.remove_units db1 0 [5]).repos 0).last_unit_removed =
      some db1.clock :=
  membership_side_effect_order db0 db1 db1 0 5 ⟨0, 5, 1, 1⟩ rfl rfl rfl

/-- C10: the timestamp side effect of a membership change writes only the
single targeted repository field.  A membership create sets
`last_unit_added` and leaves `last_unit_removed`, `slug`, `display_name`
and `description` — and every other repository — unchanged; a membership
delete sets `last_unit_removed` and likewise leaves every other field and
repository unchanged. -/
theorem units_changed_frame (dbA dbD : Db) (r u r2 : Nat)
    (rcu1 : RepositoryContentUnit) (hne : r2 ≠ r)
    (habs : dbA.rcus.any (pairMatch r u) = false)
    (hone : dbD.rcus.filter (fun row => row.repository == r &&
      [u].contains row.content_unit) = [rcu1]) :
    (((Repository.add_units dbA r [u]).repos r).last_unit_added = some dbA.clock ∧
     ((Repository.add_units dbA r [u]).repos r).last_unit_removed =
       (dbA.repos r).last_unit_removed ∧
     ((Repository.add_units dbA r [u]).repos r).slug = (dbA.repos r).slug ∧
     ((Repository.add_units dbA r [u]).repos r).display_name =
       (dbA.repos r).display_name ∧
     ((Repository.add_units dbA r [u]).repos r).description =
       (dbA.repos r).description ∧
     (Repository.add_units dbA r [u]).repos r2 = dbA.repos r2) ∧
    (((Repository.remove_units dbD r [u]).repos r).last_unit_removed =
       some dbD.clock ∧
     ((Repository.remove_units dbD r [u]).repos r).last_unit_added =
       (dbD.repos r).last_unit_added ∧
     ((Repository.remove_units dbD r [u]).repos r).slug = (dbD.repos r).slug ∧
     ((Repository.remove_units dbD r [u]).repos r).display_name =
       (dbD.repos r).display_name ∧
     ((Repository.remove_units dbD r [u]).repos r).description =
       (dbD.repos r).description ∧
     (Repository.remove_units dbD r [u]).repos r2 = dbD.repos r2) := by
  have h2 : (r2 == r) = false := by
    simp [hne]
  constructor
  · refine ⟨?_, ?_, ?_, ?_, ?_, ?_⟩ <;>
      first
      | (rw [add_units_one_repos dbA r u r habs]; simp)
      | (rw [add_units_one_repos dbA r u r2 habs]; simp [h2])
  · refine ⟨?_, ?_, ?_, ?_, ?_, ?_⟩ <;>
      first
      | (rw [remove_units_one_repos dbD r u r rcu1 hone]; simp)
      | (rw [remove_units_one_repos dbD r u r2 rcu1 hone]; simp [h2])

/-- Witness for C10: create from the initial state, delete from the state
after one add, observing repository 1 as the untouched bystander. -/
theorem units_changed_frame_witness :
    (((Repository.add_units db0 0 [5]).repos 0).last_unit_added = some db0.clock ∧
     ((Repository.add_units db0 0 [5]).repos 0).last_unit_removed =
       (db0.repos 0).last_unit_removed ∧
     ((Repository.add_units db0 0 [5]).repos 0).slug = (db0.repos 0).slug ∧
     ((Repository.add_units db0 0 [5]).repos 0).display_name =
       (db0.repos 0).display_name ∧
     ((Repository.add_units db0 0 [5]).repos 0).description =
       (db0.repos 0).description ∧
     (Repository.add_units db0 0 [5]).repos 1 = db0.repos 1) ∧
    (((Repository.remove_units db1 0 [5]).repos 0).last_unit_removed =
       some db1.clock ∧
     ((Repository.remove_units db1 0 [5]).repos 0).last_unit_added =
       (db1.repos 0).last_unit_added ∧
     ((Repository.remove_units db1 0 [5]).repos 0).slug = (db1.repos 0).slug ∧
     ((Repository.remove_units db1 0 [5]).repos 0).display_name =
       (db1.repos 0).display_name ∧
     ((Repository.remove_units db1 0 [5]).repos 0).description =
       (db1.repos 0).description ∧
     (Repository.remove_units db1 0 [5]).repos 1 = db1.repos 1) :=
  units_changed_frame db0 db1 0 5 1 ⟨0, 5, 1, 1⟩ (by decide) rfl rfl

/-! ## C5: what `ContentUnitFile.save` actually hashes -/

/-- C5 (code defect): `ContentUnitFile.save` does not record digests of the
exact byte content of the attached file.  It iterates
`self.content.readlines()` — which materializes every line of the file at
once — and feeds each line through `line.encode('utf8')`, so the file is
read in text mode and universal newline translation rewrites the bytes
before hashing.  At the concrete file content `a CR LF b`
(bytes 97, 13, 10, 98) the hashers are fed `a LF b` (97, 10, 98): the
stored sha256 digest equals the digest of the translated stream and is
provably different from the digest of the file's actual bytes, which the
claim requires. -/
theorem file_save_hash_diverges :
    savedHashStream [97, 13, 10, 98] = [97, 10, 98] ∧
    savedSha256 [97, 13, 10, 98] = sha256Hex [97, 10, 98] ∧
    savedSha256 [97, 13, 10, 98] ≠ sha256Hex [97, 13, 10, 98] := by
  refine ⟨by decide, rfl, by decide⟩

end Pulp
